import Mathlib

/-!
Verification of `foldercat.py` (`traverse_folder` and its helpers) against its
specification.  The program is embedded shallowly: byte strings are `List Nat`,
the output text stream is a list of Unicode code points (`List Nat`), the file
system is a finite tree, Python's `re.search` is modelled by a regular-expression
matcher applied with search-anywhere semantics, and `bytes.decode('utf-8')`
(strict and `errors='replace'`) by an explicit UTF-8 decoder.
-/

/-- Regular expressions, the model of the pattern strings handed to `re.search`
(source: `includes` / `excludes` arguments of `traverse_folder`). -/
inductive Regex where
  | emptyset : Regex
  | eps : Regex
  | chr : Char → Regex
  | alt : Regex → Regex → Regex
  | cat : Regex → Regex → Regex
  | star : Regex → Regex
deriving Repr, DecidableEq

/-- Whether a regex accepts the empty string. -/
def nullable : Regex → Bool
  | .emptyset => false
  | .eps => true
  | .chr _ => false
  | .alt r1 r2 => nullable r1 || nullable r2
  | .cat r1 r2 => nullable r1 && nullable r2
  | .star _ => true

/-- Brzozowski derivative of a regex by one character. -/
def rderiv : Regex → Char → Regex
  | .emptyset, _ => .emptyset
  | .eps, _ => .emptyset
  | .chr c, a => if a = c then .eps else .emptyset
  | .alt r1 r2, a => .alt (rderiv r1 a) (rderiv r2 a)
  | .cat r1 r2, a =>
      if nullable r1 then .alt (.cat (rderiv r1 a) r2) (rderiv r2 a)
      else .cat (rderiv r1 a) r2
  | .star r, a => .cat (rderiv r a) (.star r)

/-- Whole-string match of a regex (the analogue of `re.fullmatch`). -/
def rmatch (r : Regex) : List Char → Bool
  | [] => nullable r
  | c :: cs => rmatch (rderiv r c) cs

/-- `re.search(r, s) is not None`: the regex matches some contiguous substring
of `s` (search-anywhere semantics, source lines 61 and 68). -/
def rsearch (r : Regex) (s : String) : Bool :=
  s.toList.tails.any (fun t => t.inits.any (fun m => rmatch r m))

/-- `len(includes) > 0 and all(re.search(incl, relative_path) is None
for incl in includes)` — the first `continue` guard (source line 61). -/
def includeSkip (includes : List Regex) (rel : String) : Bool :=
  decide (0 < includes.length) && includes.all (fun incl => !(rsearch incl rel))

/-- `any(re.search(excl, relative_path) is not None for excl in excludes)` —
the second `continue` guard (source line 68). -/
def excludeSkip (excludes : List Regex) (rel : String) : Bool :=
  excludes.any (fun excl => rsearch excl rel)

/-- Is `b` a UTF-8 continuation byte (`0x80..0xBF`)? -/
def isCont (b : Nat) : Bool := decide (0x80 ≤ b ∧ b ≤ 0xBF)

/-- Lower bound for the first continuation byte after lead byte `b`
(UTF-8 shortest-form and surrogate-exclusion constraints). -/
def contLo (b : Nat) : Nat := if b = 0xE0 then 0xA0 else if b = 0xF0 then 0x90 else 0x80

/-- Upper bound for the first continuation byte after lead byte `b`. -/
def contHi (b : Nat) : Nat := if b = 0xED then 0x9F else if b = 0xF4 then 0x8F else 0xBF

/-- First continuation byte check for lead byte `b`. -/
def okCont1 (b b1 : Nat) : Bool := decide (contLo b ≤ b1 ∧ b1 ≤ contHi b)

/-- Code point of a two-byte sequence. -/
def cp2 (b b1 : Nat) : Nat := (b % 0x20) * 0x40 + b1 % 0x40

/-- Code point of a three-byte sequence. -/
def cp3 (b b1 b2 : Nat) : Nat := (b % 0x10) * 0x1000 + (b1 % 0x40) * 0x40 + b2 % 0x40

/-- Code point of a four-byte sequence. -/
def cp4 (b b1 b2 b3 : Nat) : Nat :=
  (b % 0x8) * 0x40000 + (b1 % 0x40) * 0x1000 + (b2 % 0x40) * 0x40 + b3 % 0x40

/-- Strict UTF-8 decoding of a byte string to code points; `none` on any
invalid sequence.  Models `content.decode('utf-8')` (source line 81). -/
def utf8Strict : List Nat → Option (List Nat)
  | [] => some []
  | b :: rest =>
    if b < 0x80 then (utf8Strict rest).map (fun cs => b :: cs)
    else if 0xC2 ≤ b ∧ b ≤ 0xDF then
      match rest with
      | b1 :: r => if isCont b1 then (utf8Strict r).map (fun cs => cp2 b b1 :: cs) else none
      | [] => none
    else if 0xE0 ≤ b ∧ b ≤ 0xEF then
      match rest with
      | b1 :: b2 :: r =>
        if okCont1 b b1 && isCont b2 then (utf8Strict r).map (fun cs => cp3 b b1 b2 :: cs)
        else none
      | _ => none
    else if 0xF0 ≤ b ∧ b ≤ 0xF4 then
      match rest with
      | b1 :: b2 :: b3 :: r =>
        if okCont1 b b1 && isCont b2 && isCont b3 then
          (utf8Strict r).map (fun cs => cp4 b b1 b2 b3 :: cs)
        else none
      | _ => none
    else none

/-- Lossy UTF-8 decoding: each maximal invalid subpart becomes one U+FFFD
replacement character.  Models `content.decode('utf-8', errors='replace')`
(source line 84). -/
def utf8Replace : List Nat → List Nat
  | [] => []
  | b :: rest =>
    if b < 0x80 then b :: utf8Replace rest
    else if 0xC2 ≤ b ∧ b ≤ 0xDF then
      match _h1 : rest with
      | b1 :: r =>
        if isCont b1 then cp2 b b1 :: utf8Replace r else 0xFFFD :: utf8Replace rest
      | [] => [0xFFFD]
    else if 0xE0 ≤ b ∧ b ≤ 0xEF then
      match _h1 : rest with
      | b1 :: r =>
        if okCont1 b b1 then
          match _h2 : r with
          | b2 :: r2 =>
            if isCont b2 then cp3 b b1 b2 :: utf8Replace r2 else 0xFFFD :: utf8Replace r
          | [] => [0xFFFD]
        else 0xFFFD :: utf8Replace rest
      | [] => [0xFFFD]
    else if 0xF0 ≤ b ∧ b ≤ 0xF4 then
      match _h1 : rest with
      | b1 :: r =>
        if okCont1 b b1 then
          match _h2 : r with
          | b2 :: r2 =>
            if isCont b2 then
              match _h3 : r2 with
              | b3 :: r3 =>
                if isCont b3 then cp4 b b1 b2 b3 :: utf8Replace r3
                else 0xFFFD :: utf8Replace r2
              | [] => [0xFFFD]
            else 0xFFFD :: utf8Replace r
          | [] => [0xFFFD]
        else 0xFFFD :: utf8Replace rest
      | [] => [0xFFFD]
    else 0xFFFD :: utf8Replace rest
termination_by bs => bs.length
decreasing_by all_goals (subst_vars; simp_arith)

/-- The decode step of the emission stage: try strict UTF-8, fall back to the
lossy replacement decode on failure (source lines 79–84). -/
def decodeContent (bytes : List Nat) : List Nat :=
  match utf8Strict bytes with
  | some cps => cps
  | none => utf8Replace bytes

/-- The code points of a Lean string, the representation of text written to
the output sink. -/
def strCP (s : String) : List Nat := s.toList.map Char.toNat

/-- The header line written for a file (source line 74):
`---- File Name: "<relative_path>" ----` plus newline, path verbatim. -/
def headerCP (rel : String) : List Nat :=
  strCP ("---- File Name: \"" ++ rel ++ "\" ----\n")

/-- A regular file: its name and the result of `open(file_path,'rb').read()`
— `.ok bytes`, or `.error msg` when the read raises `IOError` (source
lines 77–78 and 89). -/
structure FileEnt where
  name : String
  content : Except String (List Nat)
deriving Repr

mutual
/-- A directory: its regular files and its subdirectories, each list in the
platform enumeration order that `os.walk` reports. -/
inductive DirTree where
  | node : List FileEnt → SubDirs → DirTree
/-- An ordered list of named subdirectories. -/
inductive SubDirs where
  | nil : SubDirs
  | cons : String → DirTree → SubDirs → SubDirs
end

mutual
/-- The files yielded by `os.walk` on a directory, in order: the directory's
own files first, then each subdirectory's files depth-first (source
lines 50–51).  Each file is paired with the directory components below the
walk root. -/
def walkFiles : DirTree → List (List String × FileEnt)
  | .node fsl ds => fsl.map (fun f => (([] : List String), f)) ++ walkSubs ds
/-- Walk each subdirectory in order, prefixing its name to the components. -/
def walkSubs : SubDirs → List (List String × FileEnt)
  | .nil => []
  | .cons n t rest => (walkFiles t).map (fun q => (n :: q.1, q.2)) ++ walkSubs rest
end

mutual
/-- Number of regular files in a directory tree. -/
def countFiles : DirTree → Nat
  | .node fsl ds => fsl.length + countSubs ds
/-- Number of regular files in a list of subdirectories. -/
def countSubs : SubDirs → Nat
  | .nil => 0
  | .cons _ t rest => countFiles t + countSubs rest
end

/-- The file system: a finite map from path strings to the directory trees
they name.  A path not in the map does not exist. -/
abbrev FS : Type := List (String × DirTree)

/-- `os.walk(fol_path)`: walking a missing path yields nothing (the default
`onerror=None` swallows the scandir error); walking an existing directory
yields its files depth-first. -/
def walkRoot : Option DirTree → List (List String × FileEnt)
  | none => []
  | some t => walkFiles t

/-- `os.path.relpath(os.path.join(root, file), fol_path)` (source line 54):
the directory components below the root joined with the file name. -/
def relPath (dirs : List String) (name : String) : String :=
  String.intercalate "/" (dirs ++ [name])

/-- `os.path.join(root, file)` (source line 53), the path used in the error
message: the walk root joined with the components and the file name. -/
def fullPath (rootPath : String) (dirs : List String) (name : String) : String :=
  String.intercalate "/" (rootPath :: (dirs ++ [name]))

/-- The content part of one file's output block: on a successful read the
decoded text plus the appended newline of `f.write(content_decoded + "\n")`
(source line 85); on a read error nothing (the `except` branch writes no
content, source lines 89–90). -/
def contentPart : Except String (List Nat) → List Nat
  | .ok bytes => decodeContent bytes ++ [10]
  | .error _ => []

/-- One accepted file's output block: the optional header (written before the
read is attempted, source lines 73–74) followed by the content part. -/
def blockOf (no_header : Bool) (rel : String) (content : Except String (List Nat)) : List Nat :=
  (if !no_header then headerCP rel else []) ++ contentPart content

/-- What one discovered file contributes to the output file (source
lines 56–90): nothing when an include or exclude guard fires, its block
otherwise. -/
def emitFile (no_header : Bool) (includes excludes : List Regex) (rel : String)
    (content : Except String (List Nat)) : List Nat :=
  if includeSkip includes rel then []
  else if excludeSkip excludes rel then []
  else blockOf no_header rel content

/-- What one discovered file contributes to standard error (source line 90):
one `Error reading file ...` line when the file was accepted and its read
failed, nothing otherwise. -/
def emitErr (includes excludes : List Regex) (rel fp : String)
    (content : Except String (List Nat)) : List String :=
  if includeSkip includes rel then []
  else if excludeSkip excludes rel then []
  else match content with
    | .ok _ => []
    | .error e => ["Error reading file " ++ fp ++ ": " ++ e]

/-- Output of the inner `for file in files` loop over a list of walked
entries. -/
def emitList (no_header : Bool) (includes excludes : List Regex)
    (entries : List (List String × FileEnt)) : List Nat :=
  entries.flatMap (fun e => emitFile no_header includes excludes (relPath e.1 e.2.name) e.2.content)

/-- Output contributed by one root path `fol_path` (source lines 49–54). -/
def rootOut (fs : FS) (no_header : Bool) (includes excludes : List Regex)
    (rootPath : String) : List Nat :=
  emitList no_header includes excludes (walkRoot (List.lookup rootPath fs))

/-- Standard-error lines contributed by one root path. -/
def rootErr (fs : FS) (includes excludes : List Regex) (rootPath : String) : List String :=
  (walkRoot (List.lookup rootPath fs)).flatMap
    (fun e => emitErr includes excludes (relPath e.1 e.2.name)
      (fullPath rootPath e.1 e.2.name) e.2.content)

/-- The `folder_path` argument of `traverse_folder`: a `pathlib.Path`, a
`str`, or a sequence of path strings. -/
inductive FolderArg where
  | pathObj : String → FolderArg
  | strArg : String → FolderArg
  | seqArg : List String → FolderArg

/-- `if not isinstance(folder_path, Sequence): folder_path = [folder_path]`
(source lines 43–44) followed by `for fol_path in folder_path`: a `Path` is
not a `Sequence` and is wrapped into a one-element list; a `str` IS a
`Sequence`, is left unwrapped, and iterating it yields its characters as
one-character strings; a sequence is iterated as given. -/
def normalizeRoots : FolderArg → List String
  | .pathObj p => [p]
  | .strArg s => s.toList.map (fun c => String.mk [c])
  | .seqArg l => l

/-- The full text written to the output file by `traverse_folder` (as code
points): the concatenation over the roots, in order, of each root's
contribution. -/
def traverse_folder_out (fs : FS) (arg : FolderArg) (no_header : Bool)
    (includes excludes : List Regex) : List Nat :=
  (normalizeRoots arg).flatMap (rootOut fs no_header includes excludes)

/-- The lines written to standard error by `traverse_folder`. -/
def traverse_folder_err (fs : FS) (arg : FolderArg)
    (includes excludes : List Regex) : List String :=
  (normalizeRoots arg).flatMap (rootErr fs includes excludes)

/-- The result of a call to `traverse_folder`: per-file read errors are
caught by the `try`/`except` of source lines 76–90, so the call always
returns normally (success status); an `.error` result could only arise from
conditions outside this model, such as an unwritable output path. -/
def traverse_folder (fs : FS) (arg : FolderArg) (no_header : Bool)
    (includes excludes : List Regex) : Except String (List Nat × List String) :=
  Except.ok (traverse_folder_out fs arg no_header includes excludes,
             traverse_folder_err fs arg includes excludes)


/-- One block per walked file of a root list, in traversal order (the
specification's notion of the output as a sequence of blocks). -/
def blocksOf (fs : FS) (roots : List String) (n : Bool) : List (List Nat) :=
  roots.flatMap (fun r =>
    (walkRoot (List.lookup r fs)).map (fun e => blockOf n (relPath e.1 e.2.name) e.2.content))

/-- Number of regular files reachable from a root path. -/
def rootFileCount (fs : FS) (r : String) : Nat :=
  match List.lookup r fs with
  | none => 0
  | some t => countFiles t

/-- Auxiliary: `rsearch` holds exactly when the regex matches some contiguous
substring, i.e. search-anywhere semantics. -/
theorem rsearch_eq_true_iff (r : Regex) (s : String) :
    rsearch r s = true ↔
      ∃ pre mid post, s.toList = pre ++ mid ++ post ∧ rmatch r mid = true := by
  unfold rsearch
  rw [List.any_eq_true]
  constructor
  · rintro ⟨t, ht, hin⟩
    rw [List.mem_tails] at ht
    rw [List.any_eq_true] at hin
    obtain ⟨m, hm, hmatch⟩ := hin
    rw [List.mem_inits] at hm
    obtain ⟨post, hpost⟩ := hm
    obtain ⟨pre, hpre⟩ := ht
    exact ⟨pre, m, post, by rw [← hpre, ← hpost, List.append_assoc], hmatch⟩
  · rintro ⟨pre, mid, post, hs, hmatch⟩
    refine ⟨mid ++ post, ?_, ?_⟩
    · rw [List.mem_tails]
      exact ⟨pre, by rw [hs, List.append_assoc]⟩
    · rw [List.any_eq_true]
      refine ⟨mid, ?_, hmatch⟩
      rw [List.mem_inits]
      exact ⟨post, rfl⟩

/-- C6: include and exclude patterns are tested against the relative path with
substring-search semantics: `rsearch` (the model of `re.search`, used by both
filter guards) succeeds exactly when the pattern matches anywhere inside the
relative path; in particular the pattern `b` matches the path `abc` under
search semantics (and the include guard passes) although it does not
full-match it. -/
theorem search_semantics :
    (∀ (r : Regex) (s : String),
        rsearch r s = true ↔
          ∃ pre mid post, s.toList = pre ++ mid ++ post ∧ rmatch r mid = true)
    ∧ rmatch (Regex.chr 'b') "abc".toList = false
    ∧ rsearch (Regex.chr 'b') "abc" = true
    ∧ includeSkip [Regex.chr 'b'] "abc" = false
    ∧ excludeSkip [Regex.chr 'b'] "abc" = true :=
  ⟨rsearch_eq_true_iff, by decide, by decide, by decide, by decide⟩


/-- Auxiliary: the include guard does not fire exactly when the includes list
is empty or some include pattern search-matches. -/
theorem includeSkip_false (incl : List Regex) (rel : String) :
    includeSkip incl rel = false ↔ (incl = [] ∨ ∃ p ∈ incl, rsearch p rel = true) := by
  rcases incl with _ | ⟨i, is⟩
  · simp [includeSkip]
  · simp [includeSkip, List.all_eq_true]
    rcases Bool.eq_false_or_eq_true (rsearch i rel) with h | h <;> simp [h]

/-- Auxiliary: the exclude guard does not fire exactly when no exclude
pattern search-matches. -/
theorem excludeSkip_false (excl : List Regex) (rel : String) :
    excludeSkip excl rel = false ↔ ∀ p ∈ excl, rsearch p rel = false := by
  simp [excludeSkip, List.any_eq_false]

/-- C1: a discovered file's contribution to the output is its block exactly
when (the includes list is empty or some include pattern search-matches the
relative path) and no exclude pattern search-matches it; otherwise it is
nothing.  In particular a path matching both an include and an exclude
pattern is omitted, and an empty includes list drops no file. -/
theorem filter_accept_iff (no_header : Bool) (includes excludes : List Regex)
    (rel : String) (content : Except String (List Nat)) :
    emitFile no_header includes excludes rel content =
      if (includes = [] ∨ ∃ p ∈ includes, rsearch p rel = true)
          ∧ (∀ p ∈ excludes, rsearch p rel = false)
      then blockOf no_header rel content
      else [] := by
  unfold emitFile
  by_cases h1 : includeSkip includes rel = true
  · have hni : ¬ (includes = [] ∨ ∃ p ∈ includes, rsearch p rel = true) := by
      intro hc
      rw [← includeSkip_false includes rel] at hc
      rw [h1] at hc
      exact absurd hc (by decide)
    rw [if_pos h1, if_neg (fun hc => hni hc.1)]
  · have h1' : includeSkip includes rel = false := Bool.not_eq_true _ |>.mp h1
    rw [if_neg h1]
    by_cases h2 : excludeSkip excludes rel = true
    · have hne : ¬ ∀ p ∈ excludes, rsearch p rel = false := by
        intro hc
        rw [← excludeSkip_false excludes rel] at hc
        rw [h2] at hc
        exact absurd hc (by decide)
      rw [if_pos h2, if_neg (fun hc => hne hc.2)]
    · have h2' : excludeSkip excludes rel = false := Bool.not_eq_true _ |>.mp h2
      rw [if_neg h2, if_pos ⟨(includeSkip_false includes rel).mp h1',
        (excludeSkip_false excludes rel).mp h2'⟩]

mutual
/-- Auxiliary: the walk of a tree yields exactly one entry per regular file. -/
theorem walkFiles_length : ∀ t : DirTree, (walkFiles t).length = countFiles t
  | .node fsl ds => by
    simp [walkFiles, countFiles, walkSubs_length ds]
/-- Auxiliary: the walk of a subdirectory list yields one entry per file. -/
theorem walkSubs_length : ∀ ds : SubDirs, (walkSubs ds).length = countSubs ds
  | .nil => by simp [walkSubs, countSubs]
  | .cons n t rest => by
    simp [walkSubs, countSubs, walkFiles_length t, walkSubs_length rest]
end

/-- Auxiliary: with both filter lists empty nothing is skipped and every
discovered file contributes exactly its block. -/
theorem emitFile_no_filters (n : Bool) (rel : String) (c : Except String (List Nat)) :
    emitFile n [] [] rel c = blockOf n rel c := by
  simp [emitFile, includeSkip, excludeSkip]

/-- C2: with empty include and exclude lists, the output is exactly the
concatenation of one block per walked file, in traversal order, and the
number of blocks equals the number of regular files reachable from the
roots (each reachable file contributes exactly one block). -/
theorem traversal_blocks (fs : FS) (roots : List String) (n : Bool) :
    traverse_folder_out fs (.seqArg roots) n [] [] = (blocksOf fs roots n).flatten
    ∧ (blocksOf fs roots n).length = (roots.map (rootFileCount fs)).sum := by
  constructor
  · have h : ∀ rts : List String,
        rts.flatMap (rootOut fs n [] []) = (blocksOf fs rts n).flatten := by
      intro rts
      induction rts with
      | nil => rfl
      | cons r rs ih =>
        simp only [blocksOf, List.flatMap_cons, List.flatten_append] at ih ⊢
        rw [ih]
        congr 1
    exact h roots
  · induction roots with
    | nil => rfl
    | cons r rs ih =>
      simp only [blocksOf, List.flatMap_cons, List.length_append, List.map_cons, List.sum_cons]
      simp only [blocksOf] at ih
      rw [ih]
      congr 1
      rw [List.length_map]
      unfold rootFileCount walkRoot
      rcases List.lookup r fs with _ | t
      · rfl
      · exact walkFiles_length t

/-- C3: for an accepted file whose read fails, no content is written (when
headers are enabled the already-written header line stays dangling, with
headers off nothing at all is written), one error line is logged to standard
error, the surrounding loop continues with the files before and after it
unchanged, and the call still returns normally (success status). -/
theorem read_error_skips_content (n : Bool) (includes excludes : List Regex)
    (rel fp msg : String)
    (hinc : includeSkip includes rel = false)
    (hexc : excludeSkip excludes rel = false) :
    emitFile n includes excludes rel (.error msg) = (if !n then headerCP rel else [])
    ∧ emitErr includes excludes rel fp (.error msg)
        = ["Error reading file " ++ fp ++ ": " ++ msg]
    ∧ (∀ (l1 l2 : List (List String × FileEnt)) (dirs : List String) (name : String),
        emitList n includes excludes (l1 ++ (dirs, ⟨name, .error msg⟩) :: l2)
          = emitList n includes excludes l1
            ++ (emitFile n includes excludes (relPath dirs name) (.error msg)
            ++ emitList n includes excludes l2))
    ∧ (∀ (fs : FS) (arg : FolderArg),
        traverse_folder fs arg n includes excludes
          = .ok (traverse_folder_out fs arg n includes excludes,
                 traverse_folder_err fs arg includes excludes)) := by
  refine ⟨?_, ?_, ?_, ?_⟩
  · simp [emitFile, hinc, hexc, blockOf, contentPart]
  · simp [emitErr, hinc, hexc]
  · intro l1 l2 dirs name
    unfold emitList
    rw [List.flatMap_append, List.flatMap_cons]
  · intro fs arg
    rfl

/-- Witness for C3 at a concrete accepted file with a failed read. -/
theorem read_error_skips_content_witness :
    includeSkip [] "a.txt" = false ∧ excludeSkip [] "a.txt" = false
    ∧ (emitFile false [] [] "a.txt" (.error "Permission denied")
          = (if !false then headerCP "a.txt" else [])
        ∧ emitErr [] [] "a.txt" "root/a.txt" (.error "Permission denied")
            = ["Error reading file " ++ "root/a.txt" ++ ": " ++ "Permission denied"]
        ∧ (∀ (l1 l2 : List (List String × FileEnt)) (dirs : List String) (name : String),
            emitList false [] [] (l1 ++ (dirs, ⟨name, .error "Permission denied"⟩) :: l2)
              = emitList false [] [] l1
                ++ (emitFile false [] [] (relPath dirs name) (.error "Permission denied")
                ++ emitList false [] [] l2))
        ∧ (∀ (fs : FS) (arg : FolderArg),
            traverse_folder fs arg false [] []
              = .ok (traverse_folder_out fs arg false [] [],
                     traverse_folder_err fs arg [] []))) :=
  ⟨by decide, by decide,
   read_error_skips_content false [] [] "a.txt" "root/a.txt" "Permission denied"
     (by decide) (by decide)⟩

/-- C4: the emission stage decodes the full byte content with strict UTF-8
and falls back to the lossy replacement decode exactly when strict decoding
fails, so a file with invalid UTF-8 bytes still produces its output block
(header plus lossily decoded text, U+FFFD = 65533 for the bad byte) and the
call still returns normally. -/
theorem decode_fallback_lossy :
    (∀ bytes : List Nat,
        decodeContent bytes =
          match utf8Strict bytes with
          | some cps => cps
          | none => utf8Replace bytes)
    ∧ utf8Strict [104, 255, 105] = none
    ∧ decodeContent [104, 255, 105] = [104, 0xFFFD, 105]
    ∧ emitFile false [] [] "bin.dat" (.ok [104, 255, 105])
        = headerCP "bin.dat" ++ ([104, 0xFFFD, 105] ++ [10])
    ∧ traverse_folder [("r", DirTree.node [⟨"bin.dat", .ok [104, 255, 105]⟩] .nil)]
        (.pathObj "r") false [] []
        = .ok (headerCP "bin.dat" ++ ([104, 0xFFFD, 105] ++ [10]), []) := by
  have hrep : utf8Replace [104, 255, 105] = [104, 0xFFFD, 105] := by
    simp [utf8Replace, isCont]
  have hs : utf8Strict [104, 255, 105] = none := by decide
  have hdec : decodeContent [104, 255, 105] = [104, 0xFFFD, 105] := by
    simp [decodeContent, hs, hrep]
  refine ⟨fun bytes => rfl, hs, hdec, ?_, ?_⟩
  · simp [emitFile, includeSkip, excludeSkip, blockOf, contentPart, hdec]
  · simp [traverse_folder, traverse_folder_out, traverse_folder_err, normalizeRoots,
      rootOut, rootErr, emitList, walkRoot, walkFiles, walkSubs, emitFile, includeSkip,
      excludeSkip, blockOf, contentPart, emitErr, relPath, hdec]
    decide

/-- C5: with headers enabled every accepted file's content is preceded by
exactly the line `---- File Name: "<relative_path>" ----` and a newline,
the relative path written verbatim (an embedded quote is not escaped);
with `no_header` true the emission consists of the content parts alone and
no header is ever written. -/
theorem header_form :
    (∀ (includes excludes : List Regex) (rel : String) (c : Except String (List Nat)),
        emitFile false includes excludes rel c =
          if includeSkip includes rel || excludeSkip excludes rel then []
          else strCP ("---- File Name: \"" ++ rel ++ "\" ----\n") ++ contentPart c)
    ∧ headerCP "a\"b.txt" = strCP "---- File Name: \"a\"b.txt\" ----\n"
    ∧ (∀ (includes excludes : List Regex) (rel : String) (c : Except String (List Nat)),
        emitFile true includes excludes rel c =
          if includeSkip includes rel || excludeSkip excludes rel then []
          else contentPart c) := by
  refine ⟨?_, rfl, ?_⟩
  · intro includes excludes rel c
    by_cases h1 : includeSkip includes rel = true
    · simp [emitFile, h1]
    · by_cases h2 : excludeSkip excludes rel = true
      · simp [emitFile, h1, h2]
      · simp [emitFile, h1, h2, blockOf, headerCP]
  · intro includes excludes rel c
    by_cases h1 : includeSkip includes rel = true
    · simp [emitFile, h1]
    · by_cases h2 : excludeSkip excludes rel = true
      · simp [emitFile, h1, h2]
      · simp [emitFile, h1, h2, blockOf]

/-- C7: roots are processed in the given order, each root's contribution
computed independently with relative paths relative to that root; with two
roots that each contain `x/y.txt`, both files appear — the first root's
traversal before the second's — and both headers name `x/y.txt`. -/
theorem multi_root_order :
    (∀ (fs : FS) (roots : List String) (n : Bool) (incl excl : List Regex),
        traverse_folder_out fs (.seqArg roots) n incl excl
          = roots.flatMap (rootOut fs n incl excl))
    ∧ (∀ (fs : FS) (A B : String) (n : Bool) (incl excl : List Regex),
        traverse_folder_out fs (.seqArg [A, B]) n incl excl
          = rootOut fs n incl excl A ++ rootOut fs n incl excl B)
    ∧ traverse_folder_out
        [("A", DirTree.node [] (.cons "x" (.node [⟨"y.txt", .ok [104, 105]⟩] .nil) .nil)),
         ("B", DirTree.node [] (.cons "x" (.node [⟨"y.txt", .ok [106, 107]⟩] .nil) .nil))]
        (.seqArg ["A", "B"]) false [] []
        = (headerCP "x/y.txt" ++ ([104, 105] ++ [10]))
          ++ (headerCP "x/y.txt" ++ ([106, 107] ++ [10])) := by
  refine ⟨fun fs roots n incl excl => rfl, ?_, by decide⟩
  intro fs A B n incl excl
  simp [traverse_folder_out, normalizeRoots]

/-- C8: an accepted, successfully read file's emission is the optional header
followed by the decoded text and exactly one appended newline (code
point 10). -/
theorem content_trailing_newline (n : Bool) (includes excludes : List Regex)
    (rel : String) (bytes : List Nat)
    (hinc : includeSkip includes rel = false)
    (hexc : excludeSkip excludes rel = false) :
    emitFile n includes excludes rel (.ok bytes)
      = (if !n then headerCP rel else []) ++ (decodeContent bytes ++ [10]) := by
  simp [emitFile, hinc, hexc, blockOf, contentPart]

/-- Witness for C8 at a concrete accepted readable file. -/
theorem content_trailing_newline_witness :
    includeSkip [] "a.txt" = false ∧ excludeSkip [] "a.txt" = false
    ∧ emitFile false [] [] "a.txt" (.ok [104])
        = (if !false then headerCP "a.txt" else []) ++ (decodeContent [104] ++ [10]) :=
  ⟨by decide, by decide,
   content_trailing_newline false [] [] "a.txt" [104] (by decide) (by decide)⟩

/-- C9: a root path that does not exist contributes no output and no error
lines; the run continues with the remaining roots exactly as if the missing
root were absent, and the call still returns normally. -/
theorem missing_root_yields_nothing (fs : FS) (r : String)
    (h : List.lookup r fs = none) (n : Bool) (incl excl : List Regex) :
    rootOut fs n incl excl r = []
    ∧ rootErr fs incl excl r = []
    ∧ (∀ rest : List String,
        traverse_folder_out fs (.seqArg (r :: rest)) n incl excl
          = traverse_folder_out fs (.seqArg rest) n incl excl)
    ∧ traverse_folder fs (.seqArg [r]) n incl excl = .ok ([], []) := by
  have h1 : rootOut fs n incl excl r = [] := by
    simp [rootOut, emitList, h, walkRoot]
  have h2 : rootErr fs incl excl r = [] := by
    simp [rootErr, h, walkRoot]
  refine ⟨h1, h2, ?_, ?_⟩
  · intro rest
    simp [traverse_folder_out, normalizeRoots, List.flatMap_cons, h1]
  · simp [traverse_folder, traverse_folder_out, traverse_folder_err, normalizeRoots, h1, h2]

/-- Witness for C9 at a concrete missing root. -/
theorem missing_root_yields_nothing_witness :
    List.lookup "missing" ([] : FS) = none
    ∧ (rootOut [] false [] [] "missing" = []
        ∧ rootErr [] [] [] "missing" = []
        ∧ (∀ rest : List String,
            traverse_folder_out [] (.seqArg ("missing" :: rest)) false [] []
              = traverse_folder_out [] (.seqArg rest) false [] [])
        ∧ traverse_folder [] (.seqArg ["missing"]) false [] [] = .ok ([], [])) :=
  ⟨rfl, missing_root_yields_nothing [] "missing" rfl false [] []⟩

/-- C10: a `str` passed as `folder_path` is itself a `Sequence` and is not
wrapped, so each of its characters is traversed as a separate root, while a
non-`Sequence` `Path` argument is wrapped into a single root: with the file
system containing only the directory `ab`, the string argument `"ab"` looks
up the roots `a` and `b` and produces nothing, while the path argument `ab`
produces the directory's file. -/
theorem str_roots_are_chars :
    (∀ s : String, normalizeRoots (.strArg s) = s.toList.map (fun c => String.mk [c]))
    ∧ (∀ p : String, normalizeRoots (.pathObj p) = [p])
    ∧ (∀ (fs : FS) (s : String) (n : Bool) (incl excl : List Regex),
        traverse_folder_out fs (.strArg s) n incl excl
          = s.toList.flatMap (fun c => rootOut fs n incl excl (String.mk [c])))
    ∧ traverse_folder_out [("ab", DirTree.node [⟨"f.txt", .ok [104]⟩] .nil)]
        (.strArg "ab") false [] [] = []
    ∧ traverse_folder_out [("ab", DirTree.node [⟨"f.txt", .ok [104]⟩] .nil)]
        (.pathObj "ab") false [] [] = headerCP "f.txt" ++ ([104] ++ [10]) := by
  refine ⟨fun s => rfl, fun p => rfl, ?_, by decide, by decide⟩
  intro fs s n incl excl
  simp [traverse_folder_out, normalizeRoots, List.flatMap_map]
